import Mathlib

/-!
Verification of the Url-Shortner repository (FastAPI + SQLAlchemy URL
shortening service).

The development shallowly embeds the persistent data model
(`src/entities/url.py`, `src/entities/click.py`), the request schema and its
pydantic validation (`src/schemas/models.py`), the helpers of
`src/utils.py` (`generate_short_code`, `is_valid_url`), and the five HTTP
endpoint handlers of `main.py` (`create_short_url`, `redirect_to_url`,
`get_url_stats`, `list_urls`, `delete_url`) as pure Lean functions over an
explicit store state.  Timestamps are naturals, randomness is an explicit
oracle argument, and each handler threads the store explicitly.
-/

namespace UrlShort

/-- Timestamps (`datetime` values in the source) are modelled as naturals;
only their ordering and equality matter to the code under study. -/
abbrev Time := Nat

/-- A row of the `urls` table, `URLModel` in `src/entities/url.py`.
The mapped columns are `id`, `original_url`, `short_code`, `created_at`,
`expires_at`, `click_count` and `last_checked`.  The extra field
`last_accessed` models the plain Python instance attribute of that name that
`redirect_to_url` (main.py) assigns to; it is NOT a mapped column of
`URLModel`, so SQLAlchemy never persists it — we keep it in the record to
represent that in-memory write faithfully. -/
structure URLRecord where
  id : Nat
  original_url : String
  short_code : String
  created_at : Time
  expires_at : Option Time
  click_count : Nat
  last_checked : Option Time
  last_accessed : Option Time
  deriving Repr, DecidableEq, Inhabited

/-- A row of the `clicks` table, `ClickModel` in `src/entities/click.py`. -/
structure ClickRecord where
  id : Nat
  url_id : Nat
  ip_address : Option String
  user_agent : Option String
  referer : Option String
  clicked_at : Time
  deriving Repr, DecidableEq, Inhabited

/-- The relational store: the two tables plus the identity counters the
database uses to assign primary keys. -/
structure Store where
  urls : List URLRecord
  clicks : List ClickRecord
  nextUrlId : Nat
  nextClickId : Nat
  deriving Repr, DecidableEq, Inhabited

/-- The request body of POST /api/v1/shorten, `URLCreate` in
`src/schemas/models.py`. -/
structure URLCreate where
  original_url : String
  custom_alias : Option String
  expires_at : Option Time
  deriving Repr, DecidableEq, Inhabited

/-- Client metadata captured by `redirect_to_url` from the request:
`request.client.host`, the `user-agent` header (may be absent) and the
`referer` header (may be absent). -/
structure ClientMeta where
  host : String
  userAgent : Option String
  referer : Option String
  deriving Repr, DecidableEq, Inhabited

/-- `URLResponse` in `src/schemas/models.py`. -/
structure URLResponse where
  id : Nat
  original_url : String
  short_code : String
  short_url : String
  created_at : Time
  expires_at : Option Time
  click_count : Nat
  deriving Repr, DecidableEq, Inhabited

/-- `ClickResponse` in `src/schemas/models.py`. -/
structure ClickResponse where
  id : Nat
  ip_address : Option String
  user_agent : Option String
  referer : Option String
  clicked_at : Time
  deriving Repr, DecidableEq, Inhabited

/-- `URLStats` in `src/schemas/models.py`. -/
structure URLStats where
  id : Nat
  original_url : String
  short_code : String
  created_at : Time
  expires_at : Option Time
  click_count : Nat
  last_accessed : Option Time
  recent_clicks : List ClickResponse
  deriving Repr, DecidableEq, Inhabited

/-- Pydantic field-level validation failures; a 422 response reports the
list of failing fields. -/
inductive FieldError where
  | originalUrlLen
  | aliasLen
  | aliasChars
  deriving Repr, DecidableEq

/-- The error outcomes of the handlers (HTTPException status/detail pairs
in main.py, plus the pydantic 422). -/
inductive ApiError where
  | validationError (errs : List FieldError)  -- pydantic 422
  | invalidURL                                -- 400 Invalid URL format
  | invalidAliasLength                        -- 400 alias length (main.py re-check)
  | aliasConflict                             -- 409 Custom alias already exists
  | generationExhausted                       -- 500 Failed to generate unique short code
  | notFound                                  -- 404 Short URL not found
  | expired                                   -- 410 Short URL has expired
  deriving Repr, DecidableEq

/-! ## src/utils.py : generate_short_code -/

/-- Python `string.ascii_letters + string.digits`: the 62-character
alphabet used by `generate_short_code`. -/
def characters : List Char :=
  "abcdefghijklmnopqrstuvwxyzABCDEFGHIJKLMNOPQRSTUVWXYZ0123456789".data

/-- `generate_short_code(length=6)` from src/utils.py:
`''.join(random.choices(characters, k=length))`.  The random source is an
explicit oracle `pick`; draw `i` selects alphabet index `pick i mod 62`. -/
def generate_short_code (pick : Nat → Nat) (length : Nat := 6) : String :=
  String.mk ((List.range length).map fun i =>
    characters.getD (pick i % characters.length) 'a')

/-! ## src/utils.py : is_valid_url — the regex stage

The source regex, compiled with re.IGNORECASE:

  ^https?://
  (?:(?:[A-Z0-9](?:[A-Z0-9-]{0,61}[A-Z0-9])?\.)+[A-Z]{2,6}\.?|localhost|
     \d{1,3}\.\d{1,3}\.\d{1,3}\.\d{1,3})
  (?::\d+)?(?:/?|[/?]\S+)$

It is embedded below as a deterministic matcher.  Wherever the regex
engine could backtrack, the deterministic choice is equivalent because
every repeated character class is immediately followed by a delimiter the
class cannot match (dots after labels/octets, and the port/path region
cannot begin with a label, letter or digit character), so maximal munch is
forced; these facts are noted at each definition.  Character classes are
taken in their ASCII reading (the inputs of interest are ASCII URLs). -/

/-- Python `$` (without MULTILINE): matches at the very end of the string
or just before a single final newline. -/
def atEnd (cs : List Char) : Bool :=
  match cs with
  | [] => true
  | [c] => c == '\n'
  | _ => false

/-- The suffix pattern `(?:/?|[/?]\S+)$`: an empty path, a bare slash, or a
slash/question mark followed by one or more non-whitespace characters.
Greedy `\S+` needs no backtracking: `$` only accepts an empty remainder or
a final newline, and giving characters back to the remainder leaves it
starting with a non-whitespace character, which `$` rejects. -/
def tailMatch (cs : List Char) : Bool :=
  atEnd cs ||
  (match cs with
   | '/' :: rest => atEnd rest
   | _ => false) ||
  (match cs with
   | c :: rest =>
     (c == '/' || c == '?') &&
     (let body := rest.takeWhile (fun d => !d.isWhitespace)
      !body.isEmpty && atEnd (rest.dropWhile (fun d => !d.isWhitespace)))
   | [] => false)

/-- The suffix pattern `(?::\d+)?` followed by the tail.  The optional
group either is absent (first disjunct) or consumes a colon and a maximal
digit run: a shorter digit run would leave the tail starting with a digit,
which no tail alternative accepts. -/
def portTail (cs : List Char) : Bool :=
  tailMatch cs ||
  (match cs with
   | ':' :: rest =>
     let ds := rest.takeWhile Char.isDigit
     !ds.isEmpty && tailMatch (rest.dropWhile Char.isDigit)
   | _ => false)

/-- Characters of a hostname label: `[A-Z0-9-]` under IGNORECASE. -/
def isLabelChar (c : Char) : Bool := c.isAlphanum || c == '-'

/-- One group `[A-Z0-9](?:[A-Z0-9-]{0,61}[A-Z0-9])?\.` — a hostname label
of length 1..63 that starts and ends alphanumeric, followed by a literal
dot.  The label must cover the whole run of label characters before the
dot, since a shorter prefix would be followed by a label character where
the regex requires the dot. -/
def parseLabelDot (cs : List Char) : Option (List Char) :=
  let run := cs.takeWhile isLabelChar
  match cs.dropWhile isLabelChar with
  | '.' :: rest =>
    if 1 ≤ run.length && run.length ≤ 63 &&
       (run.headD '-').isAlphanum && (run.getLastD '-').isAlphanum
    then some rest else none
  | _ => none

/-- `[A-Z]{2,6}\.?` followed by the port/tail: the top-level label.  As with
labels, the letter run is forced to be consumed entirely, and must have
length 2..6; the optional dot is then tried both ways. -/
def tryTLD (cs : List Char) : Bool :=
  let run := cs.takeWhile Char.isAlpha
  let rest := cs.dropWhile Char.isAlpha
  2 ≤ run.length && run.length ≤ 6 &&
  (portTail rest ||
   (match rest with
    | '.' :: r2 => portTail r2
    | _ => false))

/-- The first host alternative `(?:label\.)+[A-Z]{2,6}\.?` followed by the
port/tail: after each consumed `label.` group, either the top-level label
closes the host here, or another `label.` group follows (the regex `+`
explores exactly these choices).  Each step consumes at least two
characters, so the fuel `cs.length + 1` supplied by `hostMatch` never runs
out before the string does. -/
def hostLabels (cs : List Char) : Nat → Bool
  | 0 => false
  | Nat.succ fuel =>
    match parseLabelDot cs with
    | none => false
    | some rest => tryTLD rest || hostLabels rest fuel

/-- The second host alternative: the literal `localhost` (input is already
lowercased) followed by the port/tail. -/
def localhostTail (cs : List Char) : Bool :=
  match cs with
  | 'l' :: 'o' :: 'c' :: 'a' :: 'l' :: 'h' :: 'o' :: 's' :: 't' :: rest => portTail rest
  | _ => false

/-- One group `\d{1,3}\.`: a digit run of length 1..3 followed by a literal
dot; the run is forced to be consumed entirely (a shorter prefix would be
followed by a digit where the dot is required). -/
def parseOctetDot (cs : List Char) : Option (List Char) :=
  let ds := cs.takeWhile Char.isDigit
  match cs.dropWhile Char.isDigit with
  | '.' :: rest => if 1 ≤ ds.length && ds.length ≤ 3 then some rest else none
  | _ => none

/-- The third host alternative `\d{1,3}\.\d{1,3}\.\d{1,3}\.\d{1,3}`
followed by the port/tail.  The final digit run is also consumed maximally:
the port/tail cannot begin with a digit. -/
def ipv4Tail (cs : List Char) : Bool :=
  match parseOctetDot cs with
  | none => false
  | some r1 =>
    match parseOctetDot r1 with
    | none => false
    | some r2 =>
      match parseOctetDot r2 with
      | none => false
      | some r3 =>
        let ds := r3.takeWhile Char.isDigit
        1 ≤ ds.length && ds.length ≤ 3 && portTail (r3.dropWhile Char.isDigit)

/-- The host alternation of the regex (matching is a plain disjunction of
the three alternatives, since the regex reports only success here). -/
def hostMatch (cs : List Char) : Bool :=
  hostLabels cs (cs.length + 1) || localhostTail cs || ipv4Tail cs

/-- The full anchored pattern `^https?://host(?::\d+)?(?:/?|[/?]\S+)$`
under IGNORECASE, modelled by lowercasing the input first (every literal
and class in the pattern is case-insensitive). -/
def matchesUrlPattern (url : String) : Bool :=
  match url.data.map Char.toLower with
  | 'h' :: 't' :: 't' :: 'p' :: rest =>
    (match rest with
     | 's' :: ':' :: '/' :: '/' :: cs => hostMatch cs
     | ':' :: '/' :: '/' :: cs => hostMatch cs
     | _ => false)
  | _ => false

/-! ## src/utils.py : is_valid_url — the urlparse stage -/

/-- WHATWG C0-control-or-space characters, stripped by `urlparse` from both
ends of its input. -/
def isC0orSpace (c : Char) : Bool := c.toNat ≤ 0x20

/-- Split a character list at the first colon, returning the parts before
and after it. -/
def splitAtColon : List Char → Option (List Char × List Char)
  | [] => none
  | c :: cs =>
    if c == ':' then some ([], cs)
    else
      match splitAtColon cs with
      | some (before, after) => some (c :: before, after)
      | none => none

/-- The scheme-shape test of `urlsplit`: the part before the colon is a
scheme when it is non-empty, starts with an ASCII letter and continues with
ASCII alphanumerics or `+`, `-`, `.`. -/
def schemeOk (before : List Char) : Bool :=
  match before with
  | [] => false
  | c :: rest =>
    c.isAlpha && rest.all (fun d => d.isAlphanum || d == '+' || d == '-' || d == '.')

/-- The part of `urllib.parse.urlparse` exercised by `is_valid_url`:
strip C0-controls/space from both ends, remove tab/CR/LF anywhere, split
off a scheme at the first colon when it has scheme shape, read the netloc
after a leading `//` up to the first `/`, `?` or `#`, and require both
scheme and netloc to be non-empty (`all([result.scheme, result.netloc])`).
A netloc containing one square bracket but not the other raises ValueError
in urlparse, which `is_valid_url` catches, returning False. -/
def urlparse_ok (url : String) : Bool :=
  let cs := (((url.data.dropWhile isC0orSpace).reverse.dropWhile isC0orSpace).reverse).filter
    (fun c => !(c == '\t' || c == '\r' || c == '\n'))
  let sr : List Char × List Char :=
    match splitAtColon cs with
    | some (before, after) =>
      if schemeOk before then (before.map Char.toLower, after) else ([], cs)
    | none => ([], cs)
  let netloc : List Char :=
    match sr.2 with
    | '/' :: '/' :: r => r.takeWhile (fun c => !(c == '/' || c == '?' || c == '#'))
    | _ => []
  if (netloc.contains '[' && !(netloc.contains ']')) ||
     (netloc.contains ']' && !(netloc.contains '[')) then false
  else !sr.1.isEmpty && !netloc.isEmpty

/-- `is_valid_url` from src/utils.py: the regex pre-filter, then the
urlparse-based scheme+netloc presence check. -/
def is_valid_url (url : String) : Bool :=
  if !(matchesUrlPattern url) then false
  else urlparse_ok url

/-! ## src/schemas/models.py : pydantic validation of URLCreate -/

/-- A character allowed by `validate_custom_alias`:
`c.isalnum() or c in '-_'`.  Python `isalnum` also accepts non-ASCII
alphanumerics; this model takes the ASCII reading. -/
def isAliasChar (c : Char) : Bool := c.isAlphanum || c == '-' || c == '_'

/-- The pydantic validation FastAPI runs on the request body before
`create_short_url` executes: field length constraints
(`original_url`: 1..2048, `custom_alias`: 3..20) and the
`validate_custom_alias` character-set validator.  Returns the list of
failing fields in declaration order; a non-empty list is a 422 response. -/
def validateURLCreate (req : URLCreate) : List FieldError :=
  (if req.original_url.length < 1 || req.original_url.length > 2048 then
    [FieldError.originalUrlLen] else []) ++
  (match req.custom_alias with
   | none => []
   | some a =>
     if a.length < 3 || a.length > 20 then [FieldError.aliasLen]
     else if a.data.all isAliasChar then [] else [FieldError.aliasChars])

/-! ## Generic list helpers used to model the ORM operations -/

/-- Apply `f` to the first element satisfying `p` (the row mutated through
the session's identity map and then committed). -/
def updateFirst {α : Type} (p : α → Bool) (f : α → α) : List α → List α
  | [] => []
  | a :: as => if p a then f a :: as else a :: updateFirst p f as

/-- Remove the first element satisfying `p` (`db.delete` of the row
returned by `.first()`). -/
def eraseFirst {α : Type} (p : α → Bool) : List α → List α
  | [] => []
  | a :: as => if p a then as else a :: eraseFirst p as

/-- Insert a click descending by `clicked_at`: the first position whose
element is not newer keeps the list sorted. -/
def insertByDesc (c : ClickRecord) : List ClickRecord → List ClickRecord
  | [] => [c]
  | d :: ds => if d.clicked_at ≤ c.clicked_at then c :: d :: ds else d :: insertByDesc c ds

/-- The `ORDER BY clicked_at DESC` of the stats query, modelled as an
insertion sort (any descending order satisfies the SQL contract). -/
def sortClicksDesc : List ClickRecord → List ClickRecord
  | [] => []
  | c :: cs => insertByDesc c (sortClicksDesc cs)

/-! ## main.py : POST /api/v1/shorten — create_short_url -/

/-- Python `str.rstrip('/')` : drop every trailing slash. -/
def rstripSlash (s : String) : String :=
  String.mk (s.data.reverse.dropWhile (fun c => c == '/')).reverse

/-- The `URLResponse` main.py builds on creation: `short_url` is the
request's base URL with trailing slashes stripped, then a slash, then the
code. -/
def mkURLResponse (db_url : URLRecord) (baseUrl : String) : URLResponse :=
  { id := db_url.id, original_url := db_url.original_url,
    short_code := db_url.short_code,
    short_url := rstripSlash baseUrl ++ "/" ++ db_url.short_code,
    created_at := db_url.created_at, expires_at := db_url.expires_at,
    click_count := db_url.click_count }

/-- The fresh `URLModel` row built by `create_short_url`: the store assigns
the next id, `created_at` defaults to the current time, `click_count` to 0,
`last_checked` stays NULL. -/
def newURLRecord (st : Store) (original code : String) (expires : Option Time)
    (now : Time) : URLRecord :=
  { id := st.nextUrlId, original_url := original, short_code := code,
    created_at := now, expires_at := expires, click_count := 0,
    last_checked := none, last_accessed := none }

/-- `db.add` + `db.commit` of a new URL row. -/
def insertURL (st : Store) (db_url : URLRecord) : Store :=
  { st with urls := st.urls ++ [db_url], nextUrlId := st.nextUrlId + 1 }

/-- Python truthiness of `url_data.custom_alias` (`if url_data.custom_alias:`):
None and the empty string are falsy. -/
def aliasTruthy : Option String → Bool
  | none => false
  | some s => !s.isEmpty

/-- The result of a shorten call: the HTTP outcome, the store afterwards,
and the number of lookup queries the handler issued against the store
(counted to state the no-store-access and bounded-retry properties; an
insert is visible as the store change itself). -/
structure ShortenResult where
  result : Except ApiError URLResponse
  store : Store
  queries : Nat
  deriving Repr

/-- The custom-alias branch of `create_short_url`: re-check the length
(3..20), query for a conflicting `short_code` (409 if found), else insert. -/
def aliasPath (st : Store) (req : URLCreate) (now : Time) (baseUrl : String) :
    ShortenResult :=
  let cAlias := req.custom_alias.getD ""
  if cAlias.length < 3 || cAlias.length > 20 then
    ⟨Except.error ApiError.invalidAliasLength, st, 0⟩
  else if (st.urls.find? (fun u => u.short_code == cAlias)).isSome then
    ⟨Except.error ApiError.aliasConflict, st, 1⟩
  else
    let db_url := newURLRecord st req.original_url cAlias req.expires_at now
    ⟨Except.ok (mkURLResponse db_url baseUrl), insertURL st db_url, 1⟩

/-- The generation loop of `create_short_url`: up to `fuel` (10) attempts,
each generating a candidate (`gen i` is the i-th call of
`generate_short_code`) and querying for a collision; returns the first
collision-free candidate and the number of attempts consumed, or `none`
after exhausting the fuel. -/
def tryGenerate (st : Store) (gen : Nat → String) (i : Nat) :
    Nat → Option String × Nat
  | 0 => (none, 0)
  | Nat.succ fuel =>
    let code := gen i
    if (st.urls.find? (fun u => u.short_code == code)).isSome then
      let r := tryGenerate st gen (i + 1) fuel
      (r.1, r.2 + 1)
    else (some code, 1)

/-- The no-alias branch of `create_short_url`: `max_attempts = 10`
generate-and-check iterations; a 500 if all collide, else insert the first
free candidate. -/
def genPath (st : Store) (req : URLCreate) (gen : Nat → String) (now : Time)
    (baseUrl : String) : ShortenResult :=
  match tryGenerate st gen 0 10 with
  | (none, q) => ⟨Except.error ApiError.generationExhausted, st, q⟩
  | (some code, q) =>
    let db_url := newURLRecord st req.original_url code req.expires_at now
    ⟨Except.ok (mkURLResponse db_url baseUrl), insertURL st db_url, q⟩

/-- The body of the `create_short_url` handler in main.py (after pydantic
has accepted the request): validate the URL (400), then the custom-alias
branch or the generation branch. -/
def shorten_endpoint (st : Store) (req : URLCreate) (gen : Nat → String)
    (now : Time) (baseUrl : String) : ShortenResult :=
  if !(is_valid_url req.original_url) then ⟨Except.error ApiError.invalidURL, st, 0⟩
  else if aliasTruthy req.custom_alias then aliasPath st req now baseUrl
  else genPath st req gen now baseUrl

/-- POST /api/v1/shorten as a whole: pydantic validation of the body (422
before the handler body runs, hence before any store access), then the
handler. -/
def create_short_url (st : Store) (req : URLCreate) (gen : Nat → String)
    (now : Time) (baseUrl : String) : ShortenResult :=
  match validateURLCreate req with
  | [] => shorten_endpoint st req gen now baseUrl
  | e :: es => ⟨Except.error (ApiError.validationError (e :: es)), st, 0⟩

/-! ## main.py : GET /\x7bshort_code\x7d — redirect_to_url -/

/-- The expiry test of `redirect_to_url`: `expires_at` is set (datetimes
are always truthy in Python) and strictly earlier than now.  The source's
timezone normalisation disappears in this model, where times are plain
naturals. -/
def isExpired (u : URLRecord) (now : Time) : Bool :=
  match u.expires_at with
  | some expires => decide (expires < now)
  | none => false

/-- The `ClickModel` row inserted on a successful redirect: client host,
user agent (defaulting to "Unknown"), referer; `clicked_at` defaults to
the current time. -/
def clickOf (st : Store) (u : URLRecord) (m : ClientMeta) (now : Time) : ClickRecord :=
  { id := st.nextClickId, url_id := u.id, ip_address := some m.host,
    user_agent := some (m.userAgent.getD "Unknown"), referer := m.referer,
    clicked_at := now }

/-- The mutation `redirect_to_url` applies to the found URL row:
`url_entry.click_count += 1` and `url_entry.last_accessed = now`.  Note the
second assignment targets `last_accessed`, which is not a mapped column of
`URLModel` (the column is `last_checked`), so it lives only on the Python
instance; `last_checked` is left untouched, exactly as in the source. -/
def bumpClick (now : Time) (r : URLRecord) : URLRecord :=
  { r with click_count := r.click_count + 1, last_accessed := some now }

/-- The committed effect of a successful redirect: the click insert and the
URL-row mutation, committed together. -/
def recordClick (st : Store) (code : String) (u : URLRecord) (m : ClientMeta)
    (now : Time) : Store :=
  { st with
    urls := updateFirst (fun r => r.short_code == code) (bumpClick now) st.urls,
    clicks := st.clicks ++ [clickOf st u m now],
    nextClickId := st.nextClickId + 1 }

/-- GET /\x7bshort_code\x7d from main.py: look up the row by code (404 if
absent), check expiry (410), record the click and the counter update, and
return the original URL (the 307 redirect target). -/
def redirect_to_url (st : Store) (code : String) (m : ClientMeta) (now : Time) :
    Except ApiError String × Store :=
  match st.urls.find? (fun r => r.short_code == code) with
  | none => (Except.error ApiError.notFound, st)
  | some u =>
    if isExpired u now then (Except.error ApiError.expired, st)
    else (Except.ok u.original_url, recordClick st code u m now)

/-- Sequential resolves: `resolveN … n` is the store after `n` redirect
requests for `code`, each at time `now`. -/
def resolveN (st : Store) (code : String) (m : ClientMeta) (now : Time) :
    Nat → Store
  | 0 => st
  | Nat.succ n => (redirect_to_url (resolveN st code m now n) code m now).2

/-! ## main.py : GET /api/v1/urls/\x7bshort_code\x7d/stats — get_url_stats -/

/-- `ClickResponse` built from a click row. -/
def mkClickResponse (k : ClickRecord) : ClickResponse :=
  { id := k.id, ip_address := k.ip_address, user_agent := k.user_agent,
    referer := k.referer, clicked_at := k.clicked_at }

/-- GET stats from main.py: look up the row by code (404 if absent), fetch
the 10 most recent clicks for it ordered by `clicked_at` descending, and
build the `URLStats` response.  The response's `last_accessed` field is
populated from `url_entry.last_checked`, exactly as in the source — not
from the `last_accessed` attribute the redirect handler assigns.  The
handler performs no write, so it returns the store unchanged. -/
def get_url_stats (st : Store) (code : String) :
    Except ApiError URLStats × Store :=
  match st.urls.find? (fun r => r.short_code == code) with
  | none => (Except.error ApiError.notFound, st)
  | some u =>
    let recent := (sortClicksDesc (st.clicks.filter (fun k => k.url_id == u.id))).take 10
    (Except.ok
      { id := u.id, original_url := u.original_url, short_code := u.short_code,
        created_at := u.created_at, expires_at := u.expires_at,
        click_count := u.click_count,
        last_accessed := u.last_checked,
        recent_clicks := recent.map mkClickResponse }, st)

/-! ## main.py : GET /api/v1/urls — list_urls -/

/-- GET /api/v1/urls from main.py: a page of rows (`offset skip`,
`limit limit`), each rendered with `short_url = f"/\x7burl.short_code\x7d"` —
a relative path with no base address. -/
def list_urls (st : Store) (skip : Nat := 0) (limit : Nat := 100) :
    List URLResponse :=
  ((st.urls.drop skip).take limit).map fun u =>
    { id := u.id, original_url := u.original_url, short_code := u.short_code,
      short_url := "/" ++ u.short_code,
      created_at := u.created_at, expires_at := u.expires_at,
      click_count := u.click_count }

/-! ## main.py : DELETE /api/v1/urls/\x7bshort_code\x7d — delete_url -/

/-- DELETE from main.py: look up the row by code (404 if absent), delete it
and — through the `cascade="all, delete-orphan"` relationship and the
`ondelete="CASCADE"` foreign key — every click row referencing it. -/
def delete_url (st : Store) (code : String) : Except ApiError Unit × Store :=
  match st.urls.find? (fun r => r.short_code == code) with
  | none => (Except.error ApiError.notFound, st)
  | some u =>
    (Except.ok (),
     { st with
       urls := eraseFirst (fun r => r.short_code == code) st.urls,
       clicks := st.clicks.filter (fun k => !(k.url_id == u.id)) })

/-! ## Helper lemmas about the list operations -/

theorem find?_updateFirst {α : Type} (p : α → Bool) (f : α → α) (l : List α) (u : α)
    (h : l.find? p = some u) (hf : p (f u) = true) :
    (updateFirst p f l).find? p = some (f u) := by
  induction l with
  | nil => simp [List.find?] at h
  | cons a as ih =>
    by_cases ha : p a
    · rw [List.find?_cons_of_pos _ ha] at h
      injection h with h
      subst h
      simp [updateFirst, ha, List.find?_cons_of_pos _ hf]
    · rw [List.find?_cons_of_neg _ ha] at h
      simp [updateFirst, ha, List.find?_cons_of_neg _ ha, ih h]

theorem find?_eraseFirst_of_nodup (l : List URLRecord) (code : String) (u : URLRecord)
    (h : l.find? (fun r => r.short_code == code) = some u)
    (hnd : (l.map (fun r => r.short_code)).Nodup) :
    (eraseFirst (fun r => r.short_code == code) l).find?
      (fun r => r.short_code == code) = none := by
  induction l with
  | nil => simp [List.find?] at h
  | cons a as ih =>
    rw [List.map_cons, List.nodup_cons] at hnd
    by_cases ha : (a.short_code == code) = true
    · have hnone : ∀ x ∈ as, ¬ ((fun r => r.short_code == code) x = true) := by
        intro x hx hxc
        apply hnd.1
        have hxeq : x.short_code = code := by simpa using hxc
        have haeq : a.short_code = code := by simpa using ha
        rw [haeq, ← hxeq]
        exact List.mem_map_of_mem _ hx
      simp [eraseFirst, ha, List.find?_eq_none.mpr hnone]
    · rw [@List.find?_cons_of_neg _ (fun r => r.short_code == code) a as ha] at h
      have htail := ih h hnd.2
      have herase : eraseFirst (fun r => r.short_code == code) (a :: as) =
          a :: eraseFirst (fun r => r.short_code == code) as := by
        simp [eraseFirst, ha]
      rw [herase,
        @List.find?_cons_of_neg _ (fun r => r.short_code == code) a
          (eraseFirst (fun r => r.short_code == code) as) ha]
      exact htail

/-- The descending order of the stats query on clicks. -/
def clickDesc (a b : ClickRecord) : Prop := b.clicked_at ≤ a.clicked_at

theorem mem_insertByDesc (c x : ClickRecord) (l : List ClickRecord)
    (h : x ∈ insertByDesc c l) : x = c ∨ x ∈ l := by
  induction l with
  | nil =>
    simp [insertByDesc] at h
    exact Or.inl h
  | cons d ds ih =>
    unfold insertByDesc at h
    by_cases hd : d.clicked_at ≤ c.clicked_at
    · rw [if_pos hd] at h
      rcases List.mem_cons.mp h with h | h
      · exact Or.inl h
      · exact Or.inr h
    · rw [if_neg hd] at h
      rcases List.mem_cons.mp h with h | h
      · exact Or.inr (by simp [h])
      · rcases ih h with h | h
        · exact Or.inl h
        · exact Or.inr (List.mem_cons_of_mem d h)

theorem pairwise_insertByDesc (c : ClickRecord) (l : List ClickRecord)
    (h : l.Pairwise clickDesc) : (insertByDesc c l).Pairwise clickDesc := by
  induction l with
  | nil => simp [insertByDesc]
  | cons d ds ih =>
    rw [List.pairwise_cons] at h
    unfold insertByDesc
    by_cases hd : d.clicked_at ≤ c.clicked_at
    · rw [if_pos hd]
      refine List.Pairwise.cons ?_ (List.Pairwise.cons h.1 h.2)
      intro x hx
      rcases List.mem_cons.mp hx with hx | hx
      · subst hx; exact hd
      · exact le_trans (h.1 x hx) hd
    · rw [if_neg hd]
      refine List.Pairwise.cons ?_ (ih h.2)
      intro x hx
      rcases mem_insertByDesc c x ds hx with hx | hx
      · subst hx; exact le_of_lt (not_le.mp hd)
      · exact h.1 x hx

theorem pairwise_sortClicksDesc (l : List ClickRecord) :
    (sortClicksDesc l).Pairwise clickDesc := by
  induction l with
  | nil => simp [sortClicksDesc]
  | cons c cs ih => exact pairwise_insertByDesc c _ ih

/-! ## Helper lemmas about the generation loop -/

theorem tryGenerate_all_collide (st : Store) (gen : Nat → String) :
    ∀ (fuel i : Nat),
      (∀ k, k < fuel →
        (st.urls.find? (fun u => u.short_code == gen (i + k))).isSome = true) →
      tryGenerate st gen i fuel = (none, fuel) := by
  intro fuel
  induction fuel with
  | zero => intro i _; rfl
  | succ f ih =>
    intro i h
    have h0 : (st.urls.find? (fun u => u.short_code == gen i)).isSome = true := by
      have := h 0 (Nat.succ_pos f); simpa using this
    have hrec : tryGenerate st gen (i + 1) f = (none, f) := by
      refine ih (i + 1) (fun k hk => ?_)
      rw [show i + 1 + k = i + (k + 1) from by omega]
      exact h (k + 1) (by omega)
    unfold tryGenerate
    simp [h0, hrec]

theorem tryGenerate_first_free (st : Store) (gen : Nat → String) :
    ∀ (fuel i k : Nat), k < fuel →
      (st.urls.find? (fun u => u.short_code == gen (i + k))).isSome = false →
      (∀ j, j < k →
        (st.urls.find? (fun u => u.short_code == gen (i + j))).isSome = true) →
      tryGenerate st gen i fuel = (some (gen (i + k)), k + 1) := by
  intro fuel
  induction fuel with
  | zero => intro i k hk; exact absurd hk (Nat.not_lt_zero k)
  | succ f ih =>
    intro i k hk hfree hcoll
    cases k with
    | zero =>
      have h0 : (st.urls.find? (fun u => u.short_code == gen i)).isSome = false := by
        simpa using hfree
      unfold tryGenerate
      simp [h0]
    | succ k' =>
      have h0 : (st.urls.find? (fun u => u.short_code == gen i)).isSome = true := by
        have := hcoll 0 (Nat.succ_pos k'); simpa using this
      have hrec : tryGenerate st gen (i + 1) f = (some (gen (i + 1 + k')), k' + 1) := by
        refine ih (i + 1) k' (by omega) ?_ (fun j hj => ?_)
        · rw [show i + 1 + k' = i + (k' + 1) from by omega]
          exact hfree
        · rw [show i + 1 + j = i + (j + 1) from by omega]
          exact hcoll (j + 1) (by omega)
      unfold tryGenerate
      simp [h0, hrec, show i + 1 + k' = i + (k' + 1) from by omega]

theorem tryGenerate_queries_le (st : Store) (gen : Nat → String) :
    ∀ (fuel i : Nat), (tryGenerate st gen i fuel).2 ≤ fuel := by
  intro fuel
  induction fuel with
  | zero => intro i; simp [tryGenerate]
  | succ f ih =>
    intro i
    unfold tryGenerate
    by_cases h : (st.urls.find? (fun u => u.short_code == gen i)).isSome = true
    · simp only [h, if_true]
      exact Nat.succ_le_succ (ih (i + 1))
    · simp only [h]
      simp

theorem tryGenerate_some_mem (st : Store) (gen : Nat → String) :
    ∀ (fuel i : Nat) (c : String) (q : Nat),
      tryGenerate st gen i fuel = (some c, q) → ∃ j, c = gen j := by
  intro fuel
  induction fuel with
  | zero => intro i c q h; simp [tryGenerate] at h
  | succ f ih =>
    intro i c q h
    unfold tryGenerate at h
    by_cases hc : (st.urls.find? (fun u => u.short_code == gen i)).isSome = true
    · rw [if_pos hc] at h
      cases hr : tryGenerate st gen (i + 1) f with
      | mk r1 r2 =>
        rw [hr] at h
        have h1 : r1 = some c := congrArg Prod.fst h
        exact ih (i + 1) c r2 (by rw [hr, h1])
    · rw [if_neg hc] at h
      have h1 : some (gen i) = some c := congrArg Prod.fst h
      injection h1 with h1
      exact ⟨i, h1.symm⟩

/-! ## Helper lemmas about the redirect path -/

theorem redirect_ok_spec (st : Store) (code : String) (m : ClientMeta) (now : Time)
    (u : URLRecord)
    (hfind : st.urls.find? (fun r => r.short_code == code) = some u)
    (hexp : isExpired u now = false) :
    redirect_to_url st code m now =
      (Except.ok u.original_url, recordClick st code u m now) := by
  unfold redirect_to_url
  rw [hfind]
  simp [hexp]

theorem resolveN_invariant (st : Store) (code : String) (m : ClientMeta) (now : Time)
    (u : URLRecord)
    (hfind : st.urls.find? (fun r => r.short_code == code) = some u)
    (hexp : isExpired u now = false) :
    ∀ N : Nat, ∃ uN : URLRecord,
      (resolveN st code m now N).urls.find? (fun r => r.short_code == code) = some uN ∧
      uN.click_count = u.click_count + N ∧
      uN.expires_at = u.expires_at ∧
      uN.id = u.id ∧
      uN.original_url = u.original_url ∧
      (resolveN st code m now N).clicks.countP (fun k => k.url_id == u.id) =
        st.clicks.countP (fun k => k.url_id == u.id) + N ∧
      (resolveN st code m now N).clicks.length = st.clicks.length + N := by
  intro N
  induction N with
  | zero => exact ⟨u, hfind, rfl, rfl, rfl, rfl, rfl, rfl⟩
  | succ n ih =>
    obtain ⟨un, hfindn, hcc, hexpn, hid, hurl, hcount, hlen⟩ := ih
    have hexpn' : isExpired un now = false := by
      unfold isExpired at hexp ⊢
      rw [hexpn]
      exact hexp
    have hp := List.find?_some hfindn
    have hres : resolveN st code m now (n + 1) =
        recordClick (resolveN st code m now n) code un m now := by
      show (redirect_to_url (resolveN st code m now n) code m now).2 = _
      rw [redirect_ok_spec _ code m now un hfindn hexpn']
    refine ⟨bumpClick now un, ?_, ?_, ?_, ?_, ?_, ?_, ?_⟩
    · rw [hres]
      exact find?_updateFirst _ _ _ un hfindn hp
    · show un.click_count + 1 = u.click_count + (n + 1)
      omega
    · exact hexpn
    · exact hid
    · exact hurl
    · rw [hres]
      show ((resolveN st code m now n).clicks ++
        [clickOf (resolveN st code m now n) un m now]).countP (fun k => k.url_id == u.id) = _
      rw [List.countP_append, hcount]
      simp [clickOf, hid, List.countP_cons]
      omega
    · rw [hres]
      show ((resolveN st code m now n).clicks ++
        [clickOf (resolveN st code m now n) un m now]).length = _
      rw [List.length_append, hlen]
      simp
      omega

/-! ## Helper lemmas about the shorten handler -/

theorem create_ok_shape (st : Store) (req : URLCreate) (gen : Nat → String)
    (now : Time) (baseUrl : String) (resp : URLResponse)
    (h : (create_short_url st req gen now baseUrl).result = Except.ok resp) :
    ∃ db_url, resp = mkURLResponse db_url baseUrl := by
  unfold create_short_url at h
  split at h
  · unfold shorten_endpoint at h
    split at h
    · simp at h
    · split at h
      · unfold aliasPath at h
        dsimp only at h
        split at h
        · simp at h
        · split at h
          · simp at h
          · simp at h
            exact ⟨_, h.symm⟩
      · unfold genPath at h
        split at h
        · simp at h
        · simp at h
          exact ⟨_, h.symm⟩
  · simp at h

theorem create_ok_gen_code (st : Store) (req : URLCreate) (gen : Nat → String)
    (now : Time) (baseUrl : String) (resp : URLResponse)
    (halias : req.custom_alias = none)
    (h : (create_short_url st req gen now baseUrl).result = Except.ok resp) :
    ∃ j, resp.short_code = gen j := by
  unfold create_short_url at h
  split at h
  · unfold shorten_endpoint at h
    rw [halias] at h
    split at h
    · simp at h
    · simp only [aliasTruthy, Bool.false_eq_true, if_false] at h
      unfold genPath at h
      split at h
      · simp at h
      · rename_i code q heq
        simp at h
        obtain ⟨j, hj⟩ := tryGenerate_some_mem st gen 10 0 code q heq
        refine ⟨j, ?_⟩
        rw [← h]
        simpa [mkURLResponse, newURLRecord] using hj
  · simp at h

/-! ## Concrete fixtures used by claim theorems and witnesses -/

def wMeta : ClientMeta := { host := "1.2.3.4", userAgent := some "UA", referer := none }

def emptyStore : Store := { urls := [], clicks := [], nextUrlId := 1, nextClickId := 1 }

def c1Rec : URLRecord :=
  { id := 1, original_url := "https://example.com", short_code := "abc",
    created_at := 0, expires_at := none, click_count := 0,
    last_checked := none, last_accessed := none }

def c1Store : Store :=
  { urls := [c1Rec], clicks := [], nextUrlId := 2, nextClickId := 1 }

def c3Store : Store :=
  { urls := [{ id := 1, original_url := "https://e.com", short_code := "old",
               created_at := 0, expires_at := some 3, click_count := 0,
               last_checked := none, last_accessed := none }],
    clicks := [], nextUrlId := 2, nextClickId := 1 }

def c7Store : Store :=
  { urls := [{ id := 1, original_url := "https://e.com", short_code := "abc",
               created_at := 0, expires_at := none, click_count := 3,
               last_checked := none, last_accessed := none }],
    clicks := [{ id := 1, url_id := 1, ip_address := none, user_agent := none,
                 referer := none, clicked_at := 2 },
               { id := 2, url_id := 1, ip_address := none, user_agent := none,
                 referer := none, clicked_at := 9 },
               { id := 3, url_id := 1, ip_address := none, user_agent := none,
                 referer := none, clicked_at := 5 }],
    nextUrlId := 2, nextClickId := 4 }

/-! ## The claims -/

/-- C1: the claim that the last-accessed time written by a successful
resolve is the value a subsequent getStats reports fails on the code.
The redirect handler assigns `url_entry.last_accessed`, which is not a
mapped column of `URLModel` (the column is `last_checked`), while the
stats handler populates its `last_accessed` response field from
`url_entry.last_checked`, which no code path ever writes.  Concretely:
resolving "abc" at time 5 succeeds and leaves the row object's
`last_accessed` attribute at 5, yet the immediately following getStats
reports `last_accessed = none` rather than that time. -/
theorem C1_last_accessed_not_reported :
    (redirect_to_url c1Store "abc" wMeta 5).1 = Except.ok "https://example.com" ∧
    (∃ u, ((redirect_to_url c1Store "abc" wMeta 5).2.urls.find?
        (fun r => r.short_code == "abc")) = some u ∧ u.last_accessed = some 5) ∧
    (∃ s, (get_url_stats (redirect_to_url c1Store "abc" wMeta 5).2 "abc").1 =
        Except.ok s ∧ s.last_accessed = none) := by
  exact ⟨rfl, ⟨_, rfl, rfl⟩, ⟨_, rfl, rfl⟩⟩

/-- C3: resolve on a code absent from the store fails with NotFound, and
resolve on a stored code whose expires_at is set and strictly earlier than
the current time fails with Expired; in both failure cases the whole store
— click rows, click counter, last-accessed data — is returned unchanged. -/
theorem C3_resolve_failure_paths (st : Store) (code : String) (m : ClientMeta)
    (now : Time) :
    (st.urls.find? (fun r => r.short_code == code) = none →
      redirect_to_url st code m now = (Except.error ApiError.notFound, st)) ∧
    (∀ u e, st.urls.find? (fun r => r.short_code == code) = some u →
      u.expires_at = some e → e < now →
      redirect_to_url st code m now = (Except.error ApiError.expired, st)) := by
  constructor
  · intro h
    unfold redirect_to_url
    rw [h]
  · intro u e hfind hexp hlt
    unfold redirect_to_url
    rw [hfind]
    have hx : isExpired u now = true := by
      unfold isExpired
      rw [hexp]
      exact decide_eq_true hlt
    simp [hx]

/-- Witness for C3: a concrete unknown code and a concrete expired code. -/
theorem C3_resolve_failure_paths_witness :
    redirect_to_url c3Store "zzz" wMeta 5 = (Except.error ApiError.notFound, c3Store) ∧
    redirect_to_url c3Store "old" wMeta 5 = (Except.error ApiError.expired, c3Store) := by
  constructor
  · exact (C3_resolve_failure_paths c3Store "zzz" wMeta 5).1 rfl
  · exact (C3_resolve_failure_paths c3Store "old" wMeta 5).2 _ 3 rfl rfl (by decide)

/-- C6: is_valid_url accepts exactly the strings that both match the
anchored http/https pattern (dotted hostname with a 2-6 letter top-level
label, localhost, or a dotted-quad IPv4 address, optional port, optional
path/query) and survive the urlparse-based structural check of a non-empty
scheme and host; failing either stage rejects the URL.  The concrete
conjuncts exercise both stages. -/
theorem C6_is_valid_url_two_stage :
    (∀ url, is_valid_url url = (matchesUrlPattern url && urlparse_ok url)) ∧
    is_valid_url "https://example.com" = true ∧
    is_valid_url "http://localhost:8000/x" = true ∧
    is_valid_url "http://192.168.1.10" = true ∧
    is_valid_url "https://www.example.com/path?q=1" = true ∧
    is_valid_url "not-a-url" = false ∧
    is_valid_url "ftp://example.com" = false ∧
    is_valid_url "https://" = false ∧
    is_valid_url "https://abc" = false ∧
    is_valid_url "https://example.museuma" = false := by
  refine ⟨?_, rfl, rfl, rfl, rfl, rfl, rfl, rfl, rfl, rfl⟩
  intro url
  unfold is_valid_url
  cases h : matchesUrlPattern url <;> simp [h]

/-- C7: getStats returns at most 10 click records, ordered newest-first by
clicked_at, and is read-only: the store after the call equals the store
before it. -/
theorem C7_stats_bounded_sorted_readonly (st : Store) (code : String) :
    (get_url_stats st code).2 = st ∧
    ∀ s, (get_url_stats st code).1 = Except.ok s →
      s.recent_clicks.length ≤ 10 ∧
      s.recent_clicks.Pairwise (fun a b => b.clicked_at ≤ a.clicked_at) := by
  constructor
  · unfold get_url_stats
    cases h : st.urls.find? (fun r => r.short_code == code) <;> simp
  · intro s hs
    unfold get_url_stats at hs
    cases h : st.urls.find? (fun r => r.short_code == code) with
    | none => rw [h] at hs; simp at hs
    | some u =>
      rw [h] at hs
      simp only [Except.ok.injEq] at hs
      subst hs
      constructor
      · rw [List.length_map]
        exact List.length_take_le 10 _
      · rw [List.pairwise_map]
        exact List.Pairwise.sublist (List.take_sublist 10 _) (pairwise_sortClicksDesc _)

/-- Witness for C7 at a concrete store with three clicks. -/
def c7Stats : URLStats := ((get_url_stats c7Store "abc").1).toOption.getD default

theorem C7_stats_witness :
    c7Stats.recent_clicks.length ≤ 10 ∧
    c7Stats.recent_clicks.Pairwise (fun a b => b.clicked_at ≤ a.clicked_at) :=
  (C7_stats_bounded_sorted_readonly c7Store "abc").2 c7Stats rfl

/-- C10: records from the list endpoint carry a relative short_url — the
string slash-plus-code with no base address — while a successful shorten
returns a fully-qualified short_url: the request's base address (trailing
slashes stripped) followed by a slash and the code. -/
theorem C10_short_url_forms (st : Store) (skip limit : Nat) (st0 : Store)
    (req : URLCreate) (gen : Nat → String) (now : Time) (baseUrl : String) :
    (∀ r ∈ list_urls st skip limit, r.short_url = "/" ++ r.short_code) ∧
    (∀ resp, (create_short_url st0 req gen now baseUrl).result = Except.ok resp →
      resp.short_url = rstripSlash baseUrl ++ "/" ++ resp.short_code) := by
  constructor
  · intro r hr
    unfold list_urls at hr
    obtain ⟨u, hu, hru⟩ := List.mem_map.mp hr
    rw [← hru]
  · intro resp h
    obtain ⟨db_url, hdb⟩ := create_ok_shape st0 req gen now baseUrl resp h
    subst hdb
    rfl

def c10Req : URLCreate :=
  { original_url := "https://example.com/a", custom_alias := some "docs",
    expires_at := none }

def c10Resp : URLResponse :=
  ((create_short_url emptyStore c10Req (fun _ => "zzzzzz") 0
    "http://localhost:8000/").result).toOption.getD default

def c10ListItem : URLResponse := (list_urls c7Store 0 100).headD default

/-- Witness for C10 at a concrete listing and a concrete shorten call. -/
theorem C10_short_url_forms_witness :
    c10ListItem.short_url = "/" ++ c10ListItem.short_code ∧
    c10Resp.short_url = rstripSlash "http://localhost:8000/" ++ "/" ++ c10Resp.short_code :=
  ⟨(C10_short_url_forms c7Store 0 100 emptyStore c10Req (fun _ => "zzzzzz") 0
      "http://localhost:8000/").1 c10ListItem (by decide),
   (C10_short_url_forms c7Store 0 100 emptyStore c10Req (fun _ => "zzzzzz") 0
      "http://localhost:8000/").2 c10Resp rfl⟩

/-- C2: for a stored, unexpired code, a resolve succeeds, increments that
record's click_count by exactly one and appends exactly one click record;
starting from a fresh record (click_count 0, no clicks for its id), N
sequential resolves yield click_count = N and exactly N click records for
that record. -/
theorem C2_resolve_click_counting (st : Store) (code : String) (m : ClientMeta)
    (now : Time) (u : URLRecord) (N : Nat)
    (hfind : st.urls.find? (fun r => r.short_code == code) = some u)
    (hexp : isExpired u now = false)
    (h0 : u.click_count = 0)
    (hc0 : st.clicks.countP (fun k => k.url_id == u.id) = 0) :
    (redirect_to_url st code m now).1 = Except.ok u.original_url ∧
    (redirect_to_url st code m now).2.clicks.length = st.clicks.length + 1 ∧
    (∃ u1, (redirect_to_url st code m now).2.urls.find?
        (fun r => r.short_code == code) = some u1 ∧
      u1.click_count = u.click_count + 1) ∧
    (∃ uN, (resolveN st code m now N).urls.find?
        (fun r => r.short_code == code) = some uN ∧
      uN.click_count = N) ∧
    (resolveN st code m now N).clicks.countP (fun k => k.url_id == u.id) = N ∧
    (resolveN st code m now N).clicks.length = st.clicks.length + N := by
  obtain ⟨u1, hf1, hcc1, _, _, _, _, hlen1⟩ :=
    resolveN_invariant st code m now u hfind hexp 1
  obtain ⟨uN, hfN, hccN, _, _, _, hcountN, hlenN⟩ :=
    resolveN_invariant st code m now u hfind hexp N
  have hone : resolveN st code m now 1 = (redirect_to_url st code m now).2 := rfl
  refine ⟨?_, ?_, ⟨u1, ?_, hcc1⟩, ⟨uN, hfN, by omega⟩, by omega, hlenN⟩
  · rw [redirect_ok_spec st code m now u hfind hexp]
  · rw [← hone]
    exact hlen1
  · rw [← hone]
    exact hf1

/-- Witness for C2: three sequential resolves of "abc" at time 5. -/
theorem C2_resolve_click_counting_witness :
    (redirect_to_url c1Store "abc" wMeta 5).1 = Except.ok c1Rec.original_url ∧
    (redirect_to_url c1Store "abc" wMeta 5).2.clicks.length = c1Store.clicks.length + 1 ∧
    (resolveN c1Store "abc" wMeta 5 3).clicks.countP
      (fun k => k.url_id == c1Rec.id) = 3 ∧
    (resolveN c1Store "abc" wMeta 5 3).clicks.length = c1Store.clicks.length + 3 := by
  have h := C2_resolve_click_counting c1Store "abc" wMeta 5 c1Rec 3 rfl rfl rfl rfl
  exact ⟨h.1, h.2.1, h.2.2.2.2.1, h.2.2.2.2.2⟩

/-- C4: a shorten call without custom alias generates at most 10 candidate
codes, checking each against the store (at most 10 lookup queries), uses
the first collision-free candidate as the new record's code, and when all
10 candidates collide fails with GenerationExhausted and inserts nothing. -/
theorem C4_generation_bounded_retry (st : Store) (req : URLCreate)
    (gen : Nat → String) (now : Time) (baseUrl : String)
    (hval : validateURLCreate req = [])
    (hurl : is_valid_url req.original_url = true)
    (halias : req.custom_alias = none) :
    ((∀ i, i < 10 →
        (st.urls.find? (fun u => u.short_code == gen i)).isSome = true) →
      (create_short_url st req gen now baseUrl).result =
        Except.error ApiError.generationExhausted ∧
      (create_short_url st req gen now baseUrl).store = st) ∧
    (∀ k, k < 10 →
      (st.urls.find? (fun u => u.short_code == gen k)).isSome = false →
      (∀ j, j < k →
        (st.urls.find? (fun u => u.short_code == gen j)).isSome = true) →
      (create_short_url st req gen now baseUrl).result =
        Except.ok (mkURLResponse
          (newURLRecord st req.original_url (gen k) req.expires_at now) baseUrl) ∧
      (newURLRecord st req.original_url (gen k) req.expires_at now).short_code = gen k ∧
      (create_short_url st req gen now baseUrl).store.urls =
        st.urls ++ [newURLRecord st req.original_url (gen k) req.expires_at now]) ∧
    (create_short_url st req gen now baseUrl).queries ≤ 10 := by
  have hred : create_short_url st req gen now baseUrl = genPath st req gen now baseUrl := by
    unfold create_short_url
    rw [hval]
    unfold shorten_endpoint
    rw [halias]
    simp [hurl, aliasTruthy]
  refine ⟨?_, ?_, ?_⟩
  · intro hcoll
    have hg : tryGenerate st gen 0 10 = (none, 10) := by
      refine tryGenerate_all_collide st gen 10 0 (fun k hk => ?_)
      simpa using hcoll k hk
    rw [hred]
    unfold genPath
    rw [hg]
    exact ⟨rfl, rfl⟩
  · intro k hk hfree hcoll
    have hg : tryGenerate st gen 0 10 = (some (gen k), k + 1) := by
      have := tryGenerate_first_free st gen 10 0 k hk (by simpa using hfree)
        (fun j hj => by simpa using hcoll j hj)
      simpa using this
    rw [hred]
    unfold genPath
    rw [hg]
    exact ⟨rfl, rfl, rfl⟩
  · rw [hred]
    rcases hg : tryGenerate st gen 0 10 with ⟨r, q⟩
    have hq := tryGenerate_queries_le st gen 10 0
    rw [hg] at hq
    cases r <;> simp [genPath, hg] <;> exact hq

def noAliasReq : URLCreate :=
  { original_url := "https://example.com", custom_alias := none, expires_at := none }

/-- A generator whose first candidate collides with the stored code "abc"
and whose second is free. -/
def c4Gen : Nat → String := fun i => if i == 0 then "abc" else "Zq7wX2"

/-- Witness for C4: every candidate of a constant generator collides with
the stored code "abc", so the call exhausts its 10 attempts. -/
theorem C4_generation_bounded_retry_witness :
    (create_short_url c1Store noAliasReq (fun _ => "abc") 0 "http://x/").result =
        Except.error ApiError.generationExhausted ∧
    (create_short_url c1Store noAliasReq (fun _ => "abc") 0 "http://x/").store = c1Store ∧
    (create_short_url c1Store noAliasReq (fun _ => "abc") 0 "http://x/").queries ≤ 10 ∧
    (create_short_url c1Store noAliasReq c4Gen 0 "http://x/").result =
      Except.ok (mkURLResponse
        (newURLRecord c1Store noAliasReq.original_url (c4Gen 1)
          noAliasReq.expires_at 0) "http://x/") := by
  have h := C4_generation_bounded_retry c1Store noAliasReq (fun _ => "abc") 0
    "http://x/" rfl rfl rfl
  have h2 := C4_generation_bounded_retry c1Store noAliasReq c4Gen 0 "http://x/" rfl rfl rfl
  refine ⟨(h.1 (fun i _ => rfl)).1, (h.1 (fun i _ => rfl)).2, h.2.2, ?_⟩
  refine (h2.2.1 1 (by omega) rfl (fun j hj => ?_)).1
  have hj0 : j = 0 := by omega
  subst hj0
  rfl

/-- C5: a shorten call whose custom alias has length outside 3..20 or a
character other than a letter, digit, hyphen or underscore is rejected by
the request-validation layer — the error names the alias field — before
the handler body runs: no store query is issued, nothing is inserted, and
the store is unchanged. -/
theorem C5_invalid_alias_rejected (st : Store) (req : URLCreate)
    (gen : Nat → String) (now : Time) (baseUrl : String) (a : String)
    (halias : req.custom_alias = some a)
    (hbad : a.length < 3 ∨ 20 < a.length ∨ ∃ c ∈ a.data, isAliasChar c = false) :
    (create_short_url st req gen now baseUrl).result =
        Except.error (ApiError.validationError (validateURLCreate req)) ∧
    (FieldError.aliasLen ∈ validateURLCreate req ∨
      FieldError.aliasChars ∈ validateURLCreate req) ∧
    (create_short_url st req gen now baseUrl).store = st ∧
    (create_short_url st req gen now baseUrl).queries = 0 := by
  have hsplit : validateURLCreate req =
      (if req.original_url.length < 1 || req.original_url.length > 2048 then
        [FieldError.originalUrlLen] else []) ++
      (if a.length < 3 || a.length > 20 then [FieldError.aliasLen]
       else if a.data.all isAliasChar then [] else [FieldError.aliasChars]) := by
    unfold validateURLCreate
    rw [halias]
  obtain ⟨e, he_or, hsec⟩ : ∃ e,
      (e = FieldError.aliasLen ∨ e = FieldError.aliasChars) ∧
      (if a.length < 3 || a.length > 20 then [FieldError.aliasLen]
       else if a.data.all isAliasChar then [] else [FieldError.aliasChars]) = [e] := by
    by_cases hlen : (a.length < 3 || a.length > 20) = true
    · exact ⟨FieldError.aliasLen, Or.inl rfl, by rw [if_pos hlen]⟩
    · have hlf : ¬(a.length < 3) ∧ ¬(a.length > 20) := by
        constructor <;> (intro hx; apply hlen; simp [hx])
      have hall : a.data.all isAliasChar = false := by
        rcases hbad with h | h | ⟨c, hc, hcf⟩
        · exact absurd h hlf.1
        · exact absurd h hlf.2
        · rw [← Bool.not_eq_true]
          intro hcon
          rw [List.all_eq_true] at hcon
          rw [hcon c hc] at hcf
          cases hcf
      exact ⟨FieldError.aliasChars, Or.inr rfl,
        by rw [if_neg hlen, if_neg (by simp [hall])]⟩
  have hv : validateURLCreate req =
      (if req.original_url.length < 1 || req.original_url.length > 2048 then
        [FieldError.originalUrlLen] else []) ++ [e] := by
    rw [hsplit, hsec]
  have hmem : e ∈ validateURLCreate req := by
    rw [hv]
    exact List.mem_append_right _ (List.mem_singleton_self e)
  rcases hvc : validateURLCreate req with _ | ⟨e1, es⟩
  · rw [hvc] at hv
    exact absurd hv.symm (by simp)
  · have hres : create_short_url st req gen now baseUrl =
        ⟨Except.error (ApiError.validationError (e1 :: es)), st, 0⟩ := by
      unfold create_short_url
      rw [hvc]
    rw [hvc] at hmem
    refine ⟨by rw [hres], ?_, by rw [hres], by rw [hres]⟩
    rcases he_or with he | he
    · subst he
      exact Or.inl hmem
    · subst he
      exact Or.inr hmem

theorem stats_notFound (st : Store) (code : String)
    (h : st.urls.find? (fun r => r.short_code == code) = none) :
    (get_url_stats st code).1 = Except.error ApiError.notFound := by
  unfold get_url_stats
  rw [h]

theorem redirect_notFound (st : Store) (code : String) (m : ClientMeta) (now : Time)
    (h : st.urls.find? (fun r => r.short_code == code) = none) :
    (redirect_to_url st code m now).1 = Except.error ApiError.notFound := by
  unfold redirect_to_url
  rw [h]

/-- C8: delete on an absent code fails NotFound and changes nothing; delete
on a stored code removes the URL record and exactly the click records owned
by it, so — under the store invariant that short codes are unique, which
the schema's unique constraint enforces — a subsequent getStats or resolve
of that code yields NotFound. -/
theorem C8_delete_cascade (st : Store) (code : String) (m : ClientMeta) (now : Time) :
    (st.urls.find? (fun r => r.short_code == code) = none →
      delete_url st code = (Except.error ApiError.notFound, st)) ∧
    (∀ u, st.urls.find? (fun r => r.short_code == code) = some u →
      (st.urls.map (fun r => r.short_code)).Nodup →
      (delete_url st code).1 = Except.ok () ∧
      (∀ k ∈ (delete_url st code).2.clicks, ¬ k.url_id = u.id) ∧
      (∀ k ∈ st.clicks, ¬ k.url_id = u.id → k ∈ (delete_url st code).2.clicks) ∧
      (get_url_stats (delete_url st code).2 code).1 = Except.error ApiError.notFound ∧
      (redirect_to_url (delete_url st code).2 code m now).1 =
        Except.error ApiError.notFound) := by
  constructor
  · intro h
    unfold delete_url
    rw [h]
  · intro u hfind hnd
    have hdel : delete_url st code =
        (Except.ok (),
         { st with urls := eraseFirst (fun r => r.short_code == code) st.urls,
                   clicks := st.clicks.filter (fun k => !(k.url_id == u.id)) }) := by
      unfold delete_url
      rw [hfind]
    have hnone := find?_eraseFirst_of_nodup st.urls code u hfind hnd
    refine ⟨by rw [hdel], ?_, ?_, ?_, ?_⟩
    · intro k hk
      rw [hdel] at hk
      have hk' := (List.mem_filter.mp hk).2
      simpa using hk'
    · intro k hk hne
      rw [hdel]
      exact List.mem_filter.mpr ⟨hk, by simpa using hne⟩
    · rw [hdel]
      exact stats_notFound _ code hnone
    · rw [hdel]
      exact redirect_notFound _ code m now hnone

def c8Rec1 : URLRecord :=
  { id := 1, original_url := "https://example.com/a", short_code := "abc",
    created_at := 0, expires_at := none, click_count := 2,
    last_checked := none, last_accessed := none }

def c8Rec2 : URLRecord :=
  { id := 2, original_url := "https://example.com/b", short_code := "xyz",
    created_at := 0, expires_at := none, click_count := 1,
    last_checked := none, last_accessed := none }

def c8Store : Store :=
  { urls := [c8Rec1, c8Rec2],
    clicks := [{ id := 1, url_id := 1, ip_address := none, user_agent := none,
                 referer := none, clicked_at := 1 },
               { id := 2, url_id := 2, ip_address := none, user_agent := none,
                 referer := none, clicked_at := 2 },
               { id := 3, url_id := 1, ip_address := none, user_agent := none,
                 referer := none, clicked_at := 3 }],
    nextUrlId := 3, nextClickId := 4 }

/-- Witness for C8: deleting an absent code, then deleting "abc" and
re-resolving it. -/
theorem C8_delete_cascade_witness :
    delete_url c8Store "nope" = (Except.error ApiError.notFound, c8Store) ∧
    (delete_url c8Store "abc").1 = Except.ok () ∧
    (get_url_stats (delete_url c8Store "abc").2 "abc").1 =
      Except.error ApiError.notFound ∧
    (redirect_to_url (delete_url c8Store "abc").2 "abc" wMeta 9).1 =
      Except.error ApiError.notFound := by
  have h2 := (C8_delete_cascade c8Store "abc" wMeta 9).2 c8Rec1 rfl (by decide)
  exact ⟨(C8_delete_cascade c8Store "nope" wMeta 9).1 rfl,
    h2.1, h2.2.2.2.1, h2.2.2.2.2⟩

theorem generate_short_code_spec (pick : Nat → Nat) (n : Nat) :
    (generate_short_code pick n).length = n ∧
    ∀ c ∈ (generate_short_code pick n).data, c ∈ characters := by
  constructor
  · show ((List.range n).map fun i =>
      characters.getD (pick i % characters.length) 'a').length = n
    rw [List.length_map, List.length_range]
  · intro c hc
    have hc' : c ∈ (List.range n).map fun i =>
        characters.getD (pick i % characters.length) 'a' := hc
    obtain ⟨i, _, hci⟩ := List.mem_map.mp hc'
    have hlt : pick i % characters.length < characters.length :=
      Nat.mod_lt _ (by decide)
    rw [← hci, List.getD_eq_getElem _ _ hlt]
    exact List.getElem_mem hlt

/-- C9: generate(length) returns a string of exactly that many characters,
all drawn from the 62-character alphanumeric alphabet, and a successful
shorten without custom alias returns a record whose short_code is such a
generated code: 6 characters, all from the alphabet. -/
theorem C9_generated_code_shape (pick : Nat → Nat) (rnd : Nat → Nat → Nat)
    (st : Store) (req : URLCreate) (now : Time) (baseUrl : String)
    (halias : req.custom_alias = none) :
    ((generate_short_code pick 6).length = 6 ∧
      ∀ c ∈ (generate_short_code pick 6).data, c ∈ characters) ∧
    ∀ resp, (create_short_url st req (fun i => generate_short_code (rnd i) 6)
        now baseUrl).result = Except.ok resp →
      resp.short_code.length = 6 ∧ ∀ c ∈ resp.short_code.data, c ∈ characters := by
  constructor
  · exact generate_short_code_spec pick 6
  · intro resp h
    obtain ⟨j, hj⟩ := create_ok_gen_code st req _ now baseUrl resp halias h
    rw [hj]
    exact generate_short_code_spec (rnd j) 6

def c9Resp : URLResponse :=
  ((create_short_url emptyStore noAliasReq
    (fun i => generate_short_code ((fun _ _ => 0) i) 6) 0 "http://x/").result).toOption.getD
    default

/-- Witness for C9: a constant random source, producing the code made of
six copies of the first alphabet character. -/
theorem C9_generated_code_shape_witness :
    (generate_short_code (fun _ => 0) 6).length = 6 ∧
    c9Resp.short_code.length = 6 := by
  have h := C9_generated_code_shape (fun _ => 0) (fun _ _ => 0) emptyStore noAliasReq
    0 "http://x/" rfl
  exact ⟨h.1.1, (h.2 c9Resp rfl).1⟩

def c5Req : URLCreate :=
  { original_url := "https://example.com", custom_alias := some "a!", expires_at := none }

/-- Witness for C5: a two-character alias. -/
theorem C5_invalid_alias_rejected_witness :
    (create_short_url emptyStore c5Req (fun _ => "zzzzzz") 0 "http://x/").result =
        Except.error (ApiError.validationError (validateURLCreate c5Req)) ∧
    (FieldError.aliasLen ∈ validateURLCreate c5Req ∨
      FieldError.aliasChars ∈ validateURLCreate c5Req) ∧
    (create_short_url emptyStore c5Req (fun _ => "zzzzzz") 0 "http://x/").store = emptyStore ∧
    (create_short_url emptyStore c5Req (fun _ => "zzzzzz") 0 "http://x/").queries = 0 :=
  C5_invalid_alias_rejected emptyStore c5Req (fun _ => "zzzzzz") 0 "http://x/" "a!"
    rfl (Or.inl (by decide))

end UrlShort
